import Mathlib

/-!
# Verification of the Market Data Gateway (src/gateway.py)

Shallow embedding of the `MarketDataGateway` class of `src/gateway.py`.

Modelling conventions:
* Python `int` is `Int`.
* A redis pipeline is a list of queued commands (`RedisCmd`); calling
  `pipe.execute()` issues them as one round trip (`RoundTrip.pipelineExec`).
  A plain `r.set` is a `RoundTrip.single`.
* A tick is a dict; the fields the gateway reads are modelled explicitly,
  with `Option` marking presence (`none` = key absent, so `tick[k]`
  raises `KeyError`). The remaining vendor fields are carried opaquely in
  `extra`; `json.dumps(tick)` is modelled by carrying the tick record
  itself as the published payload (serialization is injective).
* Prices are carried as their decimal string rendering, since the gateway
  never computes with them, only stores and forwards them.
* A command-channel message is modelled after what `command_listener` can
  observe of it: a pubsub event of a type other than message, a payload on which
  `json.loads`/attribute access raises, or a parsed dict with its
  `action` value and its token list, each token recorded by the result of
  `int(t)` (`none` = the coercion raises).
-/

namespace MarketGateway

/-- A market tick as delivered by the vendor SDK to `on_ticks`.
`instrument_token` and `last_price` are `none` when the corresponding dict
key is absent; `extra` carries all other vendor fields verbatim. -/
structure Tick where
  instrument_token : Option Int
  last_price : Option String
  extra : List (String × String)
deriving DecidableEq

/-- The redis keys the gateway writes: the interpolated per-instrument
LTP:<token> key and the fixed ZERODHA_ACCESS_TOKEN key of the source, as a
structured type. -/
inductive RKey
  | ltp (token : Int)
  | accessToken
deriving DecidableEq

/-- The literal key string the source passes to redis for each `RKey`. -/
def RKey.render : RKey → String
  | .ltp token => "LTP:" ++ toString token
  | .accessToken => "ZERODHA_ACCESS_TOKEN"

/-- A single redis command issued by the gateway: a key/value `set` or a
pub/sub `publish` of a serialized tick. -/
inductive RedisCmd
  | set (key : RKey) (value : String)
  | publish (channel : String) (payload : Tick)
deriving DecidableEq

/-- One round trip against the redis transport: either a direct command or
one `pipeline.execute()` of a queued command list. -/
inductive RoundTrip
  | single (cmd : RedisCmd)
  | pipelineExec (cmds : List RedisCmd)
deriving DecidableEq

/-- Outcome of the login sequence in `perform_login`:
`auto_login` returned no request token, `generate_session` raised, or a
session was established with the given access token. -/
inductive LoginOutcome
  | loginFailed (error : String)
  | sessionError
  | success (access_token : String)
deriving DecidableEq

/-- `MarketDataGateway.perform_login` (src/gateway.py lines 44-71): returns
whether login succeeded and the redis round trips it issued. On success the
access token is written by a direct set of the key ZERODHA_ACCESS_TOKEN;
on any failure the method returns false after logging, writing nothing. -/
def perform_login : LoginOutcome → Bool × List RoundTrip
  | .loginFailed _ => (false, [])
  | .sessionError => (false, [])
  | .success tok => (true, [RoundTrip.single (RedisCmd.set RKey.accessToken tok)])

/-- The pipeline commands queued for one tick whose `instrument_token`
field held `token`: a conditional pipe set of the key LTP:<token> to the
last price, followed by the unconditional pipe publish of the serialized
tick on the channel market_ticks (src/gateway.py lines 75-83). -/
def tickCmds (t : Tick) (token : Int) : List RedisCmd :=
  (match t.last_price with
   | some p => [RedisCmd.set (RKey.ltp token) p]
   | none => []) ++ [RedisCmd.publish "market_ticks" t]

/-- The full command list `on_ticks` queues for a batch, or `none` when
reading the instrument_token key raises `KeyError` for some tick of the batch
(the loop aborts and `pipe.execute()` is never reached). -/
def onTicksCmds : List Tick → Option (List RedisCmd)
  | [] => some []
  | t :: rest =>
    match t.instrument_token with
    | none => none
    | some token => (onTicksCmds rest).map (fun cs => tickCmds t token ++ cs)

/-- `MarketDataGateway.on_ticks` (src/gateway.py lines 73-85) as the list of
transport round trips it performs: one `pipe.execute()` of the queued batch,
or none at all when the loop raised before reaching `pipe.execute()`. -/
def on_ticks (ticks : List Tick) : List RoundTrip :=
  match onTicksCmds ticks with
  | some cs => [RoundTrip.pipelineExec cs]
  | none => []

/-- The snapshot store: latest value per key. -/
def KV := RKey → Option String

/-- Effect of one redis command on the snapshot store: `set` overwrites the
key, `publish` leaves the store unchanged. -/
def applyCmd (kv : KV) : RedisCmd → KV
  | .set k v => fun k2 => if k2 = k then some v else kv k2
  | .publish _ _ => kv

/-- Effect of a command list on the snapshot store, applied in order. -/
def applyCmds (kv : KV) (cmds : List RedisCmd) : KV :=
  cmds.foldl applyCmd kv

/-- A call on the `KiteTicker` websocket object: `subscribe(tokens)` or
`set_mode(MODE_FULL, tokens)`. -/
inductive WsCall
  | subscribe (tokens : List Int)
  | setModeFull (tokens : List Int)
deriving DecidableEq

/-- `MarketDataGateway.on_connect` (src/gateway.py lines 87-91) as the list
of websocket calls it performs, given the current subscription registry:
when the registry is nonempty it subscribes to `list(self.subscribed_tokens)`
and sets full mode for the same list; an empty registry (falsy in Python)
produces no call. Python enumerates the set in an unspecified order; the
model fixes the ascending enumeration. -/
def on_connect (subscribed : Finset Int) : List WsCall :=
  if subscribed.Nonempty then
    [WsCall.subscribe (subscribed.sort (· ≤ ·)),
     WsCall.setModeFull (subscribed.sort (· ≤ ·))]
  else []

/-- All tokens covered by `subscribe` calls in a websocket call list. -/
def wsSubscribeTokens : List WsCall → List Int
  | [] => []
  | WsCall.subscribe l :: rest => l ++ wsSubscribeTokens rest
  | WsCall.setModeFull _ :: rest => wsSubscribeTokens rest

/-- All tokens covered by `set_mode(MODE_FULL, ...)` calls in a websocket
call list. -/
def wsModeFullTokens : List WsCall → List Int
  | [] => []
  | WsCall.subscribe _ :: rest => wsModeFullTokens rest
  | WsCall.setModeFull l :: rest => l ++ wsModeFullTokens rest

/-- An inbound command-channel message as observed by `command_listener`:
a pubsub event of a type other than message; a payload on which parsing
raises (invalid JSON, or a structure without `.get`); or a parsed dict
with its `action` value (`none` = key absent) and its `tokens` list
(defaulted to the empty list when the tokens key is absent), each token recorded by
the result of `int(t)` (`none` = the coercion raises `ValueError`). -/
inductive CmdMsg
  | nonMessage
  | malformed
  | action (a : Option String) (tokens : List (Option Int))
deriving DecidableEq

/-- The mutable state of `MarketDataGateway` that the command listener
touches: the subscription registry `self.subscribed_tokens` and whether
`self.kws` holds a ticker object (`None` until `start` creates it). -/
structure GwState where
  subscribed : Finset Int
  kws : Bool
deriving DecidableEq

/-- The list comprehension
`[int(t) for t in tokens if int(t) not in self.subscribed_tokens]`
(src/gateway.py line 112): `none` when `int(t)` raises for any token of
the command (the whole comprehension, hence the whole message, is then
abandoned), otherwise the coerced tokens not already in the registry, in
order, duplicates within the command preserved. -/
def coerceFilter (s : Finset Int) : List (Option Int) → Option (List Int)
  | [] => some []
  | none :: _ => none
  | some n :: rest =>
    (coerceFilter s rest).map (fun r => if n ∈ s then r else n :: r)

/-- One iteration of the `command_listener` loop (src/gateway.py lines
104-121) on a single message: returns the new gateway state and the
websocket calls issued. Any exception (parse failure or token coercion
failure) is caught by the surrounding `try`/`except`, which logs and
leaves the state untouched. Tokens are subscribed and recorded only when
`new_tokens` is nonempty and `self.kws` is set. -/
def handleMessage (st : GwState) (msg : CmdMsg) : GwState × List WsCall :=
  match msg with
  | .nonMessage => (st, [])
  | .malformed => (st, [])
  | .action a tokens =>
    if a = some "SUBSCRIBE" then
      match coerceFilter st.subscribed tokens with
      | none => (st, [])
      | some newTokens =>
        if newTokens ≠ [] ∧ st.kws = true then
          ({ st with subscribed := st.subscribed ∪ newTokens.toFinset },
           [WsCall.subscribe newTokens, WsCall.setModeFull newTokens])
        else (st, [])
    else (st, [])

/-- The `command_listener` loop folded over a finite prefix of the inbound
message stream on channel `gateway_commands`, tracking the gateway state. -/
def runCommands (st : GwState) (msgs : List CmdMsg) : GwState :=
  msgs.foldl (fun s m => (handleMessage s m).1) st

/-- A SUBSCRIBE command all of whose tokens coerce successfully. -/
def subscribeCmd (toks : List Int) : CmdMsg :=
  CmdMsg.action (some "SUBSCRIBE") (toks.map some)

/-- An externally visible event in the life of the gateway process, used to
state whole-process invariants: an inbound command message, a tick batch,
a connect or close callback, a login attempt, or `start` creating the
ticker object (`self.kws = KiteTicker(...)`, src/gateway.py line 132). -/
inductive GwEvent
  | command (msg : CmdMsg)
  | ticks (batch : List Tick)
  | connect
  | close (code : Int) (reason : String)
  | login (o : LoginOutcome)
  | startTicker

/-- Effect of one gateway event on the listener-visible state. Only
`command_listener` ever writes `self.subscribed_tokens`; `on_ticks`,
`on_connect`, `on_close` and `perform_login` never touch it, and `start`
only sets `self.kws`. -/
def gwStep (st : GwState) : GwEvent → GwState
  | .command m => (handleMessage st m).1
  | .ticks _ => st
  | .connect => st
  | .close _ _ => st
  | .login _ => st
  | .startTicker => { st with kws := true }

/-- The `(channel, payload)` of a command when it is a publish. -/
def pubCmdOf : RedisCmd → Option (String × Tick)
  | .publish ch t => some (ch, t)
  | _ => none

/-- The `(key, value)` of a command when it is a set. -/
def setCmdOf : RedisCmd → Option (RKey × String)
  | .set k v => some (k, v)
  | _ => none

/-- The snapshot-store writes a tick batch calls for: one `LTP:<token>`
write per tick that carries both an instrument token and a last price. -/
def ltpWrites (ticks : List Tick) : List (RKey × String) :=
  ticks.filterMap (fun t =>
    match t.instrument_token, t.last_price with
    | some token, some p => some (RKey.ltp token, p)
    | _, _ => none)

/-- The prices carried for `token` by the ticks of a batch that have that
instrument token together with a price, in batch order. -/
def tokenPrices (ticks : List Tick) (token : Int) : List String :=
  ticks.filterMap (fun t =>
    if t.instrument_token = some token then t.last_price else none)

/-- The last price carried for `token` by a tick batch, if any tick of the
batch has that instrument token together with a price. -/
def lastLtpIn (ticks : List Tick) (token : Int) : Option String :=
  (tokenPrices ticks token).getLast?

/-- First option if present, otherwise the second. -/
def orDefault (a b : Option String) : Option String :=
  match a with
  | some v => some v
  | none => b

/-- The values `set` into key `k` by a command list, in order. -/
def setsTo (cmds : List RedisCmd) (k : RKey) : List String :=
  cmds.filterMap (fun c =>
    match c with
    | .set k2 v => if k2 = k then some v else none
    | .publish _ _ => none)

/-! ## Helper lemmas -/

/-- A coercion failure anywhere in the token list makes the whole list
comprehension raise: `coerceFilter` yields `none`. -/
theorem coerceFilter_eq_none (s : Finset Int) :
    ∀ tokens : List (Option Int), none ∈ tokens → coerceFilter s tokens = none := by
  intro tokens h
  induction tokens with
  | nil => cases h
  | cons t rest ih =>
    cases t with
    | none => rfl
    | some n =>
      have hr : none ∈ rest := by
        rcases List.mem_cons.mp h with h1 | h2
        · exact absurd h1 (by simp)
        · exact h2
      simp [coerceFilter, ih hr]

/-- On an all-valid token list, the comprehension returns exactly the
tokens not already in the registry, in order, duplicates preserved. -/
theorem coerceFilter_map_some (s : Finset Int) :
    ∀ toks : List Int,
      coerceFilter s (toks.map some) = some (toks.filter (fun n => decide (n ∉ s))) := by
  intro toks
  induction toks with
  | nil => rfl
  | cons n rest ih =>
    simp only [List.map_cons, coerceFilter, ih, Option.map_some]
    by_cases h : n ∈ s
    · simp [List.filter_cons, h]
    · simp [List.filter_cons, h]

/-- Adding the registry-filtered tokens to the registry adds the same
elements as adding all the tokens. -/
theorem union_filter_toFinset (s : Finset Int) (toks : List Int) :
    s ∪ (toks.filter (fun n => decide (n ∉ s))).toFinset = s ∪ toks.toFinset := by
  ext x
  simp only [Finset.mem_union, List.mem_toFinset, List.mem_filter, decide_eq_true_eq]
  constructor
  · rintro (hx | ⟨hx, _⟩)
    · exact Or.inl hx
    · exact Or.inr hx
  · rintro (hx | hx)
    · exact Or.inl hx
    · by_cases hs : x ∈ s
      · exact Or.inl hs
      · exact Or.inr ⟨hx, hs⟩

/-- When the filtered token list is empty, every token was already in the
registry. -/
theorem filter_eq_nil_union (s : Finset Int) (toks : List Int)
    (h : toks.filter (fun n => decide (n ∉ s)) = []) :
    s ∪ toks.toFinset = s := by
  have h2 := union_filter_toFinset s toks
  rw [h] at h2
  simpa using h2.symm

/-- With the ticker object present, one all-valid SUBSCRIBE command leaves
the registry at the union of old registry and submitted tokens. -/
theorem handleMessage_subscribeCmd (s : Finset Int) (toks : List Int) :
    (handleMessage ⟨s, true⟩ (subscribeCmd toks)).1 = ⟨s ∪ toks.toFinset, true⟩ := by
  simp only [handleMessage, subscribeCmd, coerceFilter_map_some, if_true, and_true, ne_eq]
  by_cases hnil : toks.filter (fun n => decide (n ∉ s)) = []
  · simp only [hnil, not_true_eq_false, if_false]
    rw [filter_eq_nil_union s toks hnil]
  · rw [if_pos hnil]
    dsimp only
    rw [union_filter_toFinset]

/-- One listener iteration never removes a token from the registry. -/
theorem handleMessage_subscribed_mono (st : GwState) (m : CmdMsg) :
    st.subscribed ⊆ ((handleMessage st m).1).subscribed := by
  cases m with
  | nonMessage => exact Finset.Subset.refl _
  | malformed => exact Finset.Subset.refl _
  | action a tokens =>
    dsimp only [handleMessage]
    split
    · split
      · exact Finset.Subset.refl _
      · split
        · exact Finset.subset_union_left
        · exact Finset.Subset.refl _
    · exact Finset.Subset.refl _

/-- No gateway event removes a token from the registry. -/
theorem gwStep_subscribed_mono (st : GwState) (e : GwEvent) :
    st.subscribed ⊆ (gwStep st e).subscribed := by
  cases e with
  | command m => exact handleMessage_subscribed_mono st m
  | ticks _ => exact Finset.Subset.refl _
  | connect => exact Finset.Subset.refl _
  | close _ _ => exact Finset.Subset.refl _
  | login _ => exact Finset.Subset.refl _
  | startTicker => exact Finset.Subset.refl _

/-- The pipeline `on_ticks` builds for a batch whose ticks all carry an
instrument token: one publish per tick in order, and one `LTP` write per
priced tick; the values set into `LTP:<token>` are exactly the prices the
batch carries for `token`, in order. -/
theorem onTicksCmds_spec (ticks : List Tick)
    (h : ∀ t ∈ ticks, t.instrument_token ≠ none) :
    ∃ cmds, onTicksCmds ticks = some cmds ∧
      cmds.filterMap pubCmdOf = ticks.map (fun t => ("market_ticks", t)) ∧
      cmds.filterMap setCmdOf = ltpWrites ticks ∧
      ∀ token : Int, setsTo cmds (RKey.ltp token) = tokenPrices ticks token := by
  induction ticks with
  | nil => exact ⟨[], rfl, rfl, rfl, fun _ => rfl⟩
  | cons t rest ih =>
    obtain ⟨cmds, hc, hp, hs, hst⟩ := ih (fun u hu => h u (List.mem_cons_of_mem _ hu))
    cases ht : t.instrument_token with
    | none => exact absurd ht (h t (List.mem_cons_self _ _))
    | some token =>
      refine ⟨tickCmds t token ++ cmds, ?_, ?_, ?_, ?_⟩
      · simp [onTicksCmds, ht, hc]
      · rw [List.filterMap_append, hp, List.map_cons]
        cases hlp : t.last_price with
        | none => simp [tickCmds, hlp, pubCmdOf]
        | some p => simp [tickCmds, hlp, pubCmdOf]
      · rw [List.filterMap_append, hs]
        cases hlp : t.last_price with
        | none => simp [tickCmds, hlp, setCmdOf, ltpWrites, List.filterMap_cons, ht]
        | some p => simp [tickCmds, hlp, setCmdOf, ltpWrites, List.filterMap_cons, ht]
      · intro token2
        have happ : setsTo (tickCmds t token ++ cmds) (RKey.ltp token2) =
            setsTo (tickCmds t token) (RKey.ltp token2) ++ setsTo cmds (RKey.ltp token2) := by
          simp [setsTo, List.filterMap_append]
        rw [happ, hst]
        by_cases htok : token = token2
        · subst htok
          cases hlp : t.last_price with
          | none => simp [tickCmds, hlp, setsTo, tokenPrices, List.filterMap_cons, ht]
          | some p => simp [tickCmds, hlp, setsTo, tokenPrices, List.filterMap_cons, ht]
        · cases hlp : t.last_price with
          | none => simp [tickCmds, hlp, setsTo, tokenPrices, List.filterMap_cons, ht, htok]
          | some p => simp [tickCmds, hlp, setsTo, tokenPrices, List.filterMap_cons, ht, htok]

/-- A missing `instrument_token` anywhere in the batch makes the loop raise
before `pipe.execute()`: no command list is produced. -/
theorem onTicksCmds_eq_none :
    ∀ ticks : List Tick, (∃ t ∈ ticks, t.instrument_token = none) →
      onTicksCmds ticks = none := by
  intro ticks h
  induction ticks with
  | nil => simp at h
  | cons t rest ih =>
    obtain ⟨u, hu, hnone⟩ := h
    rcases List.mem_cons.mp hu with heq | hmem
    · subst heq
      simp [onTicksCmds, hnone]
    · cases ht : t.instrument_token with
      | none => simp [onTicksCmds, ht]
      | some token => simp [onTicksCmds, ht, ih ⟨u, hmem, hnone⟩]

/-- Prepending an element only matters to `getLast?`-with-default when the
rest of the list is empty. -/
theorem orDefault_getLast_cons (v : String) (l : List String) (x : Option String) :
    orDefault ((v :: l).getLast?) x = orDefault l.getLast? (some v) := by
  cases l with
  | nil => rfl
  | cons a l2 =>
    rw [List.getLast?_cons_cons]
    cases hgl : (a :: l2).getLast? with
    | none => exact absurd hgl (by simp)
    | some w => rfl

/-- Replaying a command list against the snapshot store: the value at key
`k` afterwards is the last value `set` into `k`, or the prior value when
the list never sets `k` (publishes never touch the store). -/
theorem applyCmds_setsTo (cmds : List RedisCmd) :
    ∀ kv : KV, ∀ k : RKey,
      applyCmds kv cmds k = orDefault ((setsTo cmds k).getLast?) (kv k) := by
  induction cmds with
  | nil => intro kv k; rfl
  | cons c rest ih =>
    intro kv k
    cases c with
    | publish ch t =>
      show applyCmds (applyCmd kv (RedisCmd.publish ch t)) rest k = _
      rw [ih]
      rfl
    | set k2 v =>
      show applyCmds (applyCmd kv (RedisCmd.set k2 v)) rest k = _
      rw [ih]
      by_cases hk : k2 = k
      · subst hk
        have hsets : setsTo (RedisCmd.set k2 v :: rest) k2 = v :: setsTo rest k2 := by
          simp [setsTo, List.filterMap_cons]
        rw [hsets, orDefault_getLast_cons]
        have happ : applyCmd kv (RedisCmd.set k2 v) k2 = some v := by
          simp [applyCmd]
        rw [happ]
      · have hsets : setsTo (RedisCmd.set k2 v :: rest) k = setsTo rest k := by
          simp [setsTo, List.filterMap_cons, hk]
        rw [hsets]
        have happ : applyCmd kv (RedisCmd.set k2 v) k = kv k := by
          have hne : ¬k = k2 := fun h => hk h.symm
          simp [applyCmd, hne]
        rw [happ]

/-! ## Claim theorems -/

/-- The SUBSCRIBE command of the C1 scenario, applied to an empty registry:
three token strings of which the first and last coerce to the same integer. -/
def c1cmd : CmdMsg :=
  CmdMsg.action (some "SUBSCRIBE") [some 256265, some 408065, some 256265]

/-- C1, counterexample: the claim says the newly added token list contains
no duplicates and that a token repeated within one command contributes
exactly one entry. On the scenario command over an empty registry the code
computes the newly added list as the tokens not already in the registry,
without deduplicating within the command: token 256265 appears twice in
the list passed to subscribe and set_mode. -/
theorem c1_counterexample :
    (handleMessage ⟨∅, true⟩ c1cmd).2 =
      [WsCall.subscribe [256265, 408065, 256265],
       WsCall.setModeFull [256265, 408065, 256265]] ∧
    ([256265, 408065, 256265] : List Int).count 256265 = 2 ∧
    ¬ ([256265, 408065, 256265] : List Int).Nodup := by
  decide

/-- C1, amended: the newly added token list is filtered only against the
pre-existing registry, so a token repeated within one command contributes
one entry per occurrence; the registry itself deduplicates, so the scenario
command still yields a registry of exactly the two tokens, size 2. -/
theorem c1_registry_dedup :
    ((handleMessage ⟨∅, true⟩ c1cmd).1).subscribed = {256265, 408065} ∧
    ((handleMessage ⟨∅, true⟩ c1cmd).1).subscribed.card = 2 ∧
    (handleMessage ⟨∅, true⟩ c1cmd).2 =
      [WsCall.subscribe [256265, 408065, 256265],
       WsCall.setModeFull [256265, 408065, 256265]] := by
  decide

/-- C2, counterexample: the claim says that in a SUBSCRIBE command mixing
coercible and malformed tokens, only the malformed tokens are skipped. In
the code the coercion runs inside one list comprehension, so one failure
raises out of the whole command: with registry empty and the ticker
present, the command with tokens [1, malformed] adds nothing at all, and
in particular the coercible token 1 is not subscribed. -/
theorem c2_counterexample :
    handleMessage ⟨∅, true⟩ (CmdMsg.action (some "SUBSCRIBE") [some 1, none]) =
      (⟨∅, true⟩, []) ∧
    (1 : Int) ∉
      ((handleMessage ⟨∅, true⟩
        (CmdMsg.action (some "SUBSCRIBE") [some 1, none])).1).subscribed := by
  decide

/-- C2, amended: a coercion failure for any token of a SUBSCRIBE command
aborts the whole command: the state is unchanged, no websocket call is
issued, and the listener loop continues with the remaining messages
processed as if the failing command had never arrived. -/
theorem c2_coercion_aborts_batch (st : GwState) (tokens : List (Option Int))
    (h : none ∈ tokens) :
    handleMessage st (CmdMsg.action (some "SUBSCRIBE") tokens) = (st, []) ∧
    ∀ rest : List CmdMsg,
      runCommands st (CmdMsg.action (some "SUBSCRIBE") tokens :: rest) =
        runCommands st rest := by
  have h1 : handleMessage st (CmdMsg.action (some "SUBSCRIBE") tokens) = (st, []) := by
    simp [handleMessage, coerceFilter_eq_none st.subscribed tokens h]
  refine ⟨h1, fun rest => ?_⟩
  simp [runCommands, h1]

/-- C2, witness: the amended behaviour at the concrete command with tokens
[1, malformed] over the empty registry with the ticker present. -/
theorem c2_witness :
    handleMessage ⟨∅, true⟩ (CmdMsg.action (some "SUBSCRIBE") [some 1, none]) =
      (⟨∅, true⟩, []) ∧
    ∀ rest : List CmdMsg,
      runCommands ⟨∅, true⟩ (CmdMsg.action (some "SUBSCRIBE") [some 1, none] :: rest) =
        runCommands ⟨∅, true⟩ rest :=
  c2_coercion_aborts_batch ⟨∅, true⟩ [some 1, none] (by decide)

/-- C3, counterexample: the claim says a successful login persists the
session token under the key ACCESS_TOKEN. The code persists it with a
single direct set whose key renders as ZERODHA_ACCESS_TOKEN, which is not
the string ACCESS_TOKEN. -/
theorem c3_counterexample :
    perform_login (LoginOutcome.success "sessiontoken") =
      (true, [RoundTrip.single (RedisCmd.set RKey.accessToken "sessiontoken")]) ∧
    RKey.render RKey.accessToken = "ZERODHA_ACCESS_TOKEN" ∧
    RKey.render RKey.accessToken ≠ "ACCESS_TOKEN" := by
  decide

/-- C3, amended: for every successful login, the session provider writes
the acquired session token into the snapshot store in one direct set under
the well-known key, which renders as ZERODHA_ACCESS_TOKEN. -/
theorem c3_access_token_key (tok : String) :
    perform_login (LoginOutcome.success tok) =
      (true, [RoundTrip.single (RedisCmd.set RKey.accessToken tok)]) ∧
    RKey.render RKey.accessToken = "ZERODHA_ACCESS_TOKEN" :=
  ⟨rfl, rfl⟩

/-- C4, counterexample: the claim says every submitted valid token ends up
in the registry regardless of whether a live connection exists. When the
ticker object is absent the registry update is skipped together with the
subscribe call: a valid SUBSCRIBE for token 5 leaves the registry empty. -/
theorem c4_counterexample :
    handleMessage ⟨∅, false⟩ (CmdMsg.action (some "SUBSCRIBE") [some 5]) =
      (⟨∅, false⟩, []) ∧
    (5 : Int) ∉
      (runCommands ⟨∅, false⟩ [CmdMsg.action (some "SUBSCRIBE") [some 5]]).subscribed := by
  decide

/-- C4, amended: provided the ticker object exists throughout (which the
startup order guarantees once the listener is running), the registry after
any sequence of all-valid SUBSCRIBE commands equals the initial registry
united with the set of all tokens ever submitted — deduplicated, and
independent of submission order and repetition. -/
theorem c4_registry_union (s : Finset Int) (cmds : List (List Int)) :
    (runCommands ⟨s, true⟩ (cmds.map subscribeCmd)).subscribed =
      s ∪ (cmds.flatten).toFinset := by
  induction cmds generalizing s with
  | nil => simp [runCommands]
  | cons c rest ih =>
    simp only [List.map_cons, runCommands, List.foldl_cons]
    rw [handleMessage_subscribeCmd]
    have h2 := ih (s ∪ c.toFinset)
    simp only [runCommands] at h2
    rw [h2, List.flatten_cons, List.toFinset_append, Finset.union_assoc]

/-- C5: for a batch of ticks that all carry an instrument token, the
pipeline publishes every tick to the broadcast channel in order, including
ticks with no last price; it issues an LTP write exactly for the ticks
carrying a last price; and replaying the pipeline against any snapshot
store leaves each LTP key at the most recently processed price for its
token (or untouched when the batch carries none). -/
theorem c5_tick_pipeline (ticks : List Tick)
    (h : ∀ t ∈ ticks, t.instrument_token ≠ none) :
    ∃ cmds, onTicksCmds ticks = some cmds ∧
      cmds.filterMap pubCmdOf = ticks.map (fun t => ("market_ticks", t)) ∧
      cmds.filterMap setCmdOf = ltpWrites ticks ∧
      ∀ (kv : KV) (token : Int),
        applyCmds kv cmds (RKey.ltp token) =
          orDefault (lastLtpIn ticks token) (kv (RKey.ltp token)) := by
  obtain ⟨cmds, hc, hp, hs, hst⟩ := onTicksCmds_spec ticks h
  refine ⟨cmds, hc, hp, hs, fun kv token => ?_⟩
  rw [applyCmds_setsTo, hst]
  simp only [lastLtpIn]

/-- Concrete batch for the C5 witness: a priced tick, an unpriced tick of
another instrument, and a second priced tick of the first instrument. -/
def c5ticks : List Tick :=
  [⟨some 256265, some "22150.5", []⟩,
   ⟨some 7, none, [("volume", "12")]⟩,
   ⟨some 256265, some "22151.0", []⟩]

/-- C5, witness: the pipeline property evaluated on the concrete batch. -/
theorem c5_witness :
    (∀ t ∈ c5ticks, t.instrument_token ≠ none) ∧
    (∃ cmds, onTicksCmds c5ticks = some cmds ∧
      cmds.filterMap pubCmdOf = c5ticks.map (fun t => ("market_ticks", t)) ∧
      cmds.filterMap setCmdOf = ltpWrites c5ticks ∧
      ∀ (kv : KV) (token : Int),
        applyCmds kv cmds (RKey.ltp token) =
          orDefault (lastLtpIn c5ticks token) (kv (RKey.ltp token))) :=
  ⟨by decide, c5_tick_pipeline c5ticks (by decide)⟩

/-- C6: for a batch of ticks that all carry an instrument token, all the
snapshot writes and broadcast publishes of the batch are queued and issued
as exactly one pipelined round trip against the transport — never as
interleaved individual round trips. -/
theorem c6_single_round_trip (ticks : List Tick)
    (h : ∀ t ∈ ticks, t.instrument_token ≠ none) :
    ∃ cmds, onTicksCmds ticks = some cmds ∧
      on_ticks ticks = [RoundTrip.pipelineExec cmds] ∧
      cmds.filterMap pubCmdOf = ticks.map (fun t => ("market_ticks", t)) ∧
      cmds.filterMap setCmdOf = ltpWrites ticks := by
  obtain ⟨cmds, hc, hp, hs, _⟩ := onTicksCmds_spec ticks h
  exact ⟨cmds, hc, by simp [on_ticks, hc], hp, hs⟩

/-- Concrete batch for the C6 witness. -/
def c6ticks : List Tick :=
  [⟨some 11, some "1.5", []⟩, ⟨some 12, none, []⟩]

/-- C6, witness: the single-round-trip property evaluated on the concrete
batch. -/
theorem c6_witness :
    (∀ t ∈ c6ticks, t.instrument_token ≠ none) ∧
    (∃ cmds, onTicksCmds c6ticks = some cmds ∧
      on_ticks c6ticks = [RoundTrip.pipelineExec cmds] ∧
      cmds.filterMap pubCmdOf = c6ticks.map (fun t => ("market_ticks", t)) ∧
      cmds.filterMap setCmdOf = ltpWrites c6ticks) :=
  ⟨by decide, c6_single_round_trip c6ticks (by decide)⟩

/-- C7: on every transition into Connected, the connect handler issues
subscribe calls covering exactly the tokens currently in the registry, and
full-mode calls covering exactly the same tokens — whatever state the
registry is in at that moment, including one populated entirely while
disconnected (an empty registry is covered by issuing no call). -/
theorem c7_resubscribe_registry (s : Finset Int) :
    (wsSubscribeTokens (on_connect s)).toFinset = s ∧
    (wsModeFullTokens (on_connect s)).toFinset = s := by
  by_cases h : s.Nonempty
  · simp [on_connect, h, wsSubscribeTokens, wsModeFullTokens, Finset.sort_toFinset]
  · rw [Finset.not_nonempty_iff_eq_empty] at h
    subst h
    simp [on_connect, wsSubscribeTokens, wsModeFullTokens]

/-- C8: a malformed inbound message (invalid JSON or invalid structure) is
logged and skipped: the handler leaves the state unchanged and issues no
websocket call, and the listener processes the remaining messages exactly
as if the malformed one had never arrived, so a subsequent well-formed
SUBSCRIBE is still handled normally. -/
theorem c8_malformed_skipped (st : GwState) (rest : List CmdMsg) :
    handleMessage st CmdMsg.malformed = (st, []) ∧
    runCommands st (CmdMsg.malformed :: rest) = runCommands st rest :=
  ⟨rfl, rfl⟩

/-- C9: the subscription registry only grows: no gateway event — command
handling, tick handling, connect, close, login, or ticker creation — ever
removes a token, so after any event sequence the initial registry is still
contained in the final one. -/
theorem c9_registry_only_grows (st : GwState) (events : List GwEvent) :
    st.subscribed ⊆ (events.foldl gwStep st).subscribed := by
  induction events generalizing st with
  | nil => exact Finset.Subset.refl _
  | cons e rest ih =>
    exact (gwStep_subscribed_mono st e).trans (ih (gwStep st e))

/-- C10: if any tick of a batch lacks the instrument_token field, the
handler raises a lookup error before the pipeline is executed: no command
list is produced and no round trip is issued, so no snapshot write and no
publish takes effect for any tick of the batch, including well-formed
ticks preceding the malformed one. -/
theorem c10_batch_abort (ticks : List Tick)
    (h : ∃ t ∈ ticks, t.instrument_token = none) :
    onTicksCmds ticks = none ∧ on_ticks ticks = [] := by
  have hn := onTicksCmds_eq_none ticks h
  exact ⟨hn, by simp [on_ticks, hn]⟩

/-- Concrete batch for the C10 witness: a well-formed tick followed by a
tick lacking the instrument token. -/
def c10ticks : List Tick :=
  [⟨some 1, some "9.5", []⟩, ⟨none, some "2.0", []⟩]

/-- C10, witness: the batch-abort property evaluated on the concrete
batch. -/
theorem c10_witness :
    (∃ t ∈ c10ticks, t.instrument_token = none) ∧
    (onTicksCmds c10ticks = none ∧ on_ticks c10ticks = []) :=
  ⟨by decide, c10_batch_abort c10ticks (by decide)⟩

end MarketGateway
